import Mathlib

/-
Verification of the account-lockout authentication core (fullon.py,
database_manager.py, user_interface.py).

Modelling conventions:
- Clock readings (Python time.time()) are integers: whole-second propositional
  time.  Every boundary the code distinguishes (elapsed equal to, below, or
  above the lockout duration) is representable, and Python's int() truncation
  of the nonnegative seconds-remaining value is the identity on integers, so
  it is not written out.
- The login_attempts table is keyed per username (COLLATE NOCASE); every
  claim concerns one logical username at a time, so the tracker state is the
  Option-valued record for that username.  A NULL last_attempt_time is
  unreachable through the mutators (handle_failed_login always writes the
  current time), so the record carries a plain integer.
- Argon2 hashing is external to the repository; it is modelled as an
  abstract Hasher (hash and verify functions), with the library's contract
  (verify succeeds on the hashed password) taken as a hypothesis where a
  claim needs it.
- Python str.isalnum / isupper / islower / isdigit are modelled over the
  ASCII ranges, matching the usernames and passwords in scope.
-/

namespace Sem

/-- One row of the login_attempts table (fullon.py _init_db). -/
structure LockRec where
  attempt_count : ℕ
  last_attempt_time : ℤ
deriving DecidableEq

/-- DatabaseManager.get_lockout_status (fullon.py lines 108-130):
expiry test first (strict time_passed > lockout_duration), then the
attempt-count test. -/
def getLockoutStatus (maxAttempts : ℕ) (lockoutDuration : ℤ)
    (st : Option LockRec) (now : ℤ) : Bool × ℤ :=
  match st with
  | none => (false, 0)
  | some r =>
    if lockoutDuration < now - r.last_attempt_time then (false, 0)
    else if maxAttempts ≤ r.attempt_count then
      (true, lockoutDuration - (now - r.last_attempt_time))
    else (false, 0)

/-- DatabaseManager.handle_successful_login (fullon.py lines 132-137):
DELETE FROM login_attempts. -/
def handleSuccessfulLogin (_st : Option LockRec) : Option LockRec := none

/-- DatabaseManager.handle_failed_login (fullon.py lines 139-164): reset to 1
when strictly more than lockout_duration elapsed since the stored time (or no
row), otherwise increment; REPLACE the row with (new_count, current_time);
returns new_count together with the new state. -/
def handleFailedLogin (lockoutDuration : ℤ) (st : Option LockRec) (now : ℤ) :
    ℕ × Option LockRec :=
  match st with
  | some r =>
    if lockoutDuration < now - r.last_attempt_time then
      (1, some ⟨1, now⟩)
    else
      (r.attempt_count + 1, some ⟨r.attempt_count + 1, now⟩)
  | none => (1, some ⟨1, now⟩)

/-- The four observable outcomes a login command prints. -/
inductive LoginOutcome where
  | loginOk (user_id : ℕ)
  | accountLocked (seconds_remaining : ℤ)
  | lockedNow
  | invalidCreds (attempts_remaining : ℕ)
deriving DecidableEq

/-- UserInterface.cmd_login of fullon.py (lines 185-204), database-backed,
with max_attempts = 3 and lockout_duration = 60 as in the code; the
verification result (verify_login) is passed in. -/
def cmdLogin (st : Option LockRec) (now : ℤ) (verify_result : Option ℕ) :
    LoginOutcome × Option LockRec :=
  let status := getLockoutStatus 3 60 st now
  if status.1 then (.accountLocked status.2, st)
  else
    match verify_result with
    | some user_id => (.loginOk user_id, handleSuccessfulLogin st)
    | none =>
      let fr := handleFailedLogin 60 st now
      if 3 ≤ fr.1 then (.lockedNow, fr.2)
      else (.invalidCreds (3 - fr.1), fr.2)

/-- Per-username entry of the login_attempts.json dictionary used by
user_interface.py (a missing entry reads as attempts 0, timestamp 0). -/
structure FileRec where
  attempts : ℕ
  timestamp : ℤ
deriving DecidableEq

/-- UserInterface.cmd_login of user_interface.py (lines 33-76), JSON-file
backed: lock check only when attempts >= 3; expiry (now - timestamp >= 60)
resets the entry to (0, 0) before verification; failures below the lock
threshold store timestamp 0, the locking failure stores the current time. -/
def fileCmdLogin (st : FileRec) (now : ℤ) (verify_result : Option ℕ) :
    LoginOutcome × FileRec :=
  if 3 ≤ st.attempts ∧ now - st.timestamp < 60 then
    (.accountLocked (60 - (now - st.timestamp)), st)
  else
    let base : FileRec := if 3 ≤ st.attempts then ⟨0, 0⟩ else st
    match verify_result with
    | some user_id => (.loginOk user_id, ⟨0, 0⟩)
    | none =>
      if 3 ≤ base.attempts + 1 then (.lockedNow, ⟨base.attempts + 1, now⟩)
      else (.invalidCreds (3 - (base.attempts + 1)), ⟨base.attempts + 1, 0⟩)

/-- Run the database-backed login command over a list of
(clock reading, verification result) steps, collecting the outcomes. -/
def runCmdLogin : Option LockRec → List (ℤ × Option ℕ) →
    List LoginOutcome × Option LockRec
  | st, [] => ([], st)
  | st, s :: rest =>
    let step := cmdLogin st s.1 s.2
    let tail := runCmdLogin step.2 rest
    (step.1 :: tail.1, tail.2)

/-- Run the file-backed login command over the same kind of step list. -/
def runFileCmdLogin : FileRec → List (ℤ × Option ℕ) →
    List LoginOutcome × FileRec
  | st, [] => ([], st)
  | st, s :: rest =>
    let step := fileCmdLogin st s.1 s.2
    let tail := runFileCmdLogin step.2 rest
    (step.1 :: tail.1, tail.2)

/-- The two mutators of the login_attempts table, stamped with the clock
reading for failures. -/
inductive TrackerOp where
  | recordFailure (now : ℤ)
  | recordSuccess
deriving DecidableEq

/-- Apply one mutator to the tracker state. -/
def applyTrackerOp (st : Option LockRec) : TrackerOp → Option LockRec
  | .recordFailure now => (handleFailedLogin 60 st now).2
  | .recordSuccess => handleSuccessfulLogin st

/-- Apply a sequence of mutators, oldest first. -/
def applyTrackerOps (st : Option LockRec) (ops : List TrackerOp) :
    Option LockRec :=
  ops.foldl applyTrackerOp st

/-- Clock reading of the last recordFailure in the sequence, if any. -/
def lastFailureTime : List TrackerOp → Option ℤ
  | [] => none
  | op :: rest =>
    match lastFailureTime rest with
    | some t => some t
    | none =>
      match op with
      | .recordFailure t => some t
      | .recordSuccess => none

/-- ASCII uppercase letter (Python str.isupper per character, ASCII range). -/
def isUpperAscii (c : Char) : Bool := 'A' ≤ c && c ≤ 'Z'

/-- ASCII lowercase letter (Python str.islower per character, ASCII range). -/
def isLowerAscii (c : Char) : Bool := 'a' ≤ c && c ≤ 'z'

/-- ASCII digit (Python str.isdigit per character, ASCII range). -/
def isDigitAscii (c : Char) : Bool := '0' ≤ c && c ≤ '9'

/-- ASCII alphanumeric character. -/
def isAlnumAscii (c : Char) : Bool := isUpperAscii c || isLowerAscii c || isDigitAscii c

/-- SQLite COLLATE NOCASE folding: ASCII uppercase letters map to lowercase,
all other characters are unchanged. -/
def lowerAscii (c : Char) : Char :=
  if 'A' ≤ c ∧ c ≤ 'Z' then Char.ofNat (c.toNat + 32) else c

/-- Case-insensitive key of a username: its characters folded by
lowerAscii. -/
def nocase (s : String) : List Char := s.data.map lowerAscii

/-- Case-insensitive username comparison, as SQLite evaluates username=? on
the NOCASE column. -/
def nocaseEq (a b : String) : Bool := nocase a == nocase b

/-- One row of the users table (fullon.py _init_db): AUTOINCREMENT id,
NOCASE-unique username, password hash, creation timestamp. -/
structure UserRow where
  id : ℕ
  username : String
  password_hash : String
  created_at : String
deriving DecidableEq

/-- The Argon2 PasswordHasher, abstracted: hash produces an encoded hash,
verify checks a password against an encoded hash (VerifyMismatchError is
modelled as the value false). -/
structure Hasher where
  hash : String → String
  verify : String → String → Bool

/-- A concrete hasher used to instantiate closed statements: the encoded
hash is the plaintext and verification is string equality. -/
def idHasher : Hasher := ⟨fun p => p, fun h p => h == p⟩

/-- DatabaseManager.validate_credentials (fullon.py lines 46-63), checks in
source order; Python truthiness of a string is nonemptiness and str.isalnum
requires a nonempty string. -/
def validateCredentials (username password : String) : Bool × String :=
  if ¬(username ≠ "" ∧ username.data.all isAlnumAscii) then
    (false, "Username must be alphanumeric.")
  else if ¬(3 ≤ username.length ∧ username.length ≤ 20) then
    (false, "Username must be between 3 and 20 characters.")
  else if ¬(password ≠ "" ∧ 8 ≤ password.length) then
    (false, "Password must be at least 8 characters long.")
  else if ¬(password.data.any isUpperAscii ∧ password.data.any isLowerAscii
            ∧ password.data.any isDigitAscii) then
    (false,
     "Password must contain at least one uppercase letter, one lowercase letter, and one number.")
  else (true, "Success")

/-- DatabaseManager.register_user (fullon.py lines 65-79): validate, then
INSERT; the UNIQUE NOCASE constraint raising sqlite3.IntegrityError is
modelled as the case-insensitive existence test; AUTOINCREMENT assigns
length+1 since rows are never deleted. -/
def registerUser (H : Hasher) (users : List UserRow)
    (username password created_at : String) : (Bool × String) × List UserRow :=
  match validateCredentials username password with
  | (false, message) => ((false, message), users)
  | (true, _) =>
    if users.any (fun row => nocaseEq row.username username) then
      ((false, "Username already exists."), users)
    else
      ((true, "Success"),
       users ++ [⟨users.length + 1, username, H.hash password, created_at⟩])

/-- DatabaseManager.verify_login (fullon.py lines 81-98): fetch the first
row whose username matches case-insensitively; verify the password against
its stored hash; None both when the username is absent and when
verification fails. -/
def verifyLogin (H : Hasher) (users : List UserRow)
    (username password : String) : Option ℕ :=
  match users.find? (fun row => nocaseEq row.username username) with
  | some row => if H.verify row.password_hash password then some row.id else none
  | none => none

/-- DatabaseManager.username_exists (fullon.py lines 100-107). -/
def usernameExists (users : List UserRow) (username : String) : Bool :=
  users.any (fun row => nocaseEq row.username username)

/-- cmd_login composed with verify_login: one full login call of fullon.py
against a users table, a tracker state and a clock reading. -/
def authLogin (H : Hasher) (users : List UserRow) (st : Option LockRec)
    (username password : String) (now : ℤ) : LoginOutcome × Option LockRec :=
  cmdLogin st now (verifyLogin H users username password)

/-- Run full logins for one username over (clock reading, password) steps. -/
def runAuthLogin (H : Hasher) (users : List UserRow) (username : String) :
    Option LockRec → List (ℤ × String) → List LoginOutcome × Option LockRec
  | st, [] => ([], st)
  | st, s :: rest =>
    let step := authLogin H users st username s.2 s.1
    let tail := runAuthLogin H users username step.2 rest
    (step.1 :: tail.1, tail.2)

/-- The validation predicate as the specification words it: username
non-empty, alphanumeric, length in [3,20]; password of length at least 8
with an uppercase letter, a lowercase letter and a digit. -/
def validSpec (u p : String) : Prop :=
  u ≠ "" ∧ u.data.all isAlnumAscii ∧ 3 ≤ u.length ∧ u.length ≤ 20 ∧
  8 ≤ p.length ∧ (∃ c ∈ p.data, isUpperAscii c) ∧
  (∃ c ∈ p.data, isLowerAscii c) ∧ (∃ c ∈ p.data, isDigitAscii c)

instance (u p : String) : Decidable (validSpec u p) := by
  unfold validSpec; infer_instance

/-- At most one users row per case-insensitive username. -/
def usernamesUniqueNocase (users : List UserRow) : Prop :=
  users.Pairwise (fun a b => nocase a.username ≠ nocase b.username)

/-- handle_failed_login always stores some count of at least 1 together with
the clock reading it was called at. -/
lemma handleFailedLogin_snd (dur : ℤ) (st : Option LockRec) (now : ℤ) :
    ∃ n, 1 ≤ n ∧ handleFailedLogin dur st now = (n, some ⟨n, now⟩) := by
  cases st with
  | none => exact ⟨1, le_refl 1, rfl⟩
  | some r =>
    by_cases h : dur < now - r.last_attempt_time
    · exact ⟨1, le_refl 1, by simp [handleFailedLogin, h]⟩
    · exact ⟨r.attempt_count + 1, by omega, by simp [handleFailedLogin, h]⟩

/-- C1: for a record with attempt_count ≥ max_attempts (3) and
now - last_attempt_time < lockout_duration (60), cmd_login fails with
AccountLocked(lockout_duration - elapsed) for every possible verification
result — so the password is never consulted, even when it is correct — and
the lockout record is returned unchanged. -/
theorem cmdLogin_locked_rejects (r : LockRec) (now : ℤ) (vr : Option ℕ)
    (hcount : 3 ≤ r.attempt_count)
    (htime : now - r.last_attempt_time < 60) :
    cmdLogin (some r) now vr =
      (.accountLocked (60 - (now - r.last_attempt_time)), some r) := by
  have h60 : ¬((60 : ℤ) < now - r.last_attempt_time) := by omega
  simp [cmdLogin, getLockoutStatus, h60, hcount]

/-- Witness for C1: a record of 3 failures 20 seconds ago rejects a
correct-password attempt with 40 seconds remaining. -/
theorem cmdLogin_locked_rejects_witness :
    cmdLogin (some ⟨3, 10⟩) 30 (some 7) = (.accountLocked 40, some ⟨3, 10⟩) :=
  cmdLogin_locked_rejects ⟨3, 10⟩ 30 (some 7) (by decide) (by decide)

/-- C2 counterexample: a Clear-with-count record (attempt_count 1 < 3 =
max_attempts) whose last failure lies 100 > 60 seconds back; the claim
demands an increment to 2 (reset only for Expired records, which require
attempt_count ≥ max_attempts), but the code resets the counter to 1. -/
theorem handleFailedLogin_claim_cex :
    handleFailedLogin 60 (some ⟨1, 0⟩) 100 = (1, some ⟨1, 100⟩) ∧
    (handleFailedLogin 60 (some ⟨1, 0⟩) 100).1 ≠ 1 + 1 := by decide

/-- C2 (amended): handle_failed_login resets the counter to 1 exactly when
the record is absent or strictly more than the lockout duration has elapsed
since the stored last_attempt_time — regardless of whether attempt_count had
reached max_attempts — and increments by 1 otherwise; in every case it
persists the new count together with the current clock reading. -/
theorem handleFailedLogin_characterization (dur : ℤ) (st : Option LockRec)
    (now : ℤ) :
    (st = none → handleFailedLogin dur st now = (1, some ⟨1, now⟩)) ∧
    (∀ r, st = some r → dur < now - r.last_attempt_time →
      handleFailedLogin dur st now = (1, some ⟨1, now⟩)) ∧
    (∀ r, st = some r → now - r.last_attempt_time ≤ dur →
      handleFailedLogin dur st now
        = (r.attempt_count + 1, some ⟨r.attempt_count + 1, now⟩)) := by
  refine ⟨?_, ?_, ?_⟩
  · intro h; subst h; rfl
  · intro r h hlt; subst h; simp [handleFailedLogin, hlt]
  · intro r h hle; subst h
    have : ¬(dur < now - r.last_attempt_time) := by omega
    simp [handleFailedLogin, this]

/-- Witness for C2 (amended): a record of 2 failures, 30 ≤ 60 seconds old,
increments to 3 and stores the current clock reading. -/
theorem handleFailedLogin_characterization_witness :
    handleFailedLogin 60 (some ⟨2, 0⟩) 30 = (3, some ⟨3, 30⟩) :=
  (handleFailedLogin_characterization 60 (some ⟨2, 0⟩) 30).2.2 ⟨2, 0⟩ rfl
    (by decide)

/-- C4 counterexample: at elapsed time exactly equal to the lockout duration
the record is Expired per the claim (elapsed ≥ duration), so the claim
demands (false, 0); the code, which expires only strictly after the
duration, still reports locked and returns (true, 0). -/
theorem getLockoutStatus_claim_cex :
    getLockoutStatus 3 60 (some ⟨3, 0⟩) 60 = (true, 0) ∧
    getLockoutStatus 3 60 (some ⟨3, 0⟩) 60 ≠ (false, 0) := by decide

/-- C4 (amended): get_lockout_status returns
(true, lockout_duration - elapsed) exactly when attempt_count ≥ max_attempts
and elapsed ≤ lockout_duration (not elapsed < lockout_duration: the code
treats elapsed equal to the duration as still locked), and returns (false, 0)
in every other case, including the strictly-expired case and the no-record
case. -/
theorem getLockoutStatus_characterization (maxA : ℕ) (dur : ℤ)
    (st : Option LockRec) (now : ℤ) :
    getLockoutStatus maxA dur st now =
      match st with
      | none => (false, 0)
      | some r =>
        if maxA ≤ r.attempt_count ∧ now - r.last_attempt_time ≤ dur then
          (true, dur - (now - r.last_attempt_time))
        else (false, 0) := by
  cases st with
  | none => rfl
  | some r =>
    simp only [getLockoutStatus]
    split_ifs with h1 h2 h3 <;> first | rfl | omega

/-- Invariant carried along a mutator sequence: rows keep count ≥ 1, and the
stored time is the last failure's clock reading or, with no failure in the
sequence, the state is untouched. -/
lemma applyTrackerOps_inv : ∀ (ops : List TrackerOp) (st : Option LockRec),
    (∀ r0, st = some r0 → 1 ≤ r0.attempt_count) →
    ∀ r, applyTrackerOps st ops = some r →
      1 ≤ r.attempt_count ∧
      (match lastFailureTime ops with
       | some t => r.last_attempt_time = t
       | none => st = some r) := by
  intro ops
  induction ops with
  | nil =>
    intro st hst r hr
    simp only [applyTrackerOps, List.foldl_nil] at hr
    exact ⟨hst r hr, by simpa [lastFailureTime] using hr⟩
  | cons op rest ih =>
    intro st hst r hr
    simp only [applyTrackerOps, List.foldl_cons] at hr
    have hst' : ∀ r0, applyTrackerOp st op = some r0 → 1 ≤ r0.attempt_count := by
      intro r0 h0
      cases op with
      | recordFailure t =>
        obtain ⟨n, hn, he⟩ := handleFailedLogin_snd 60 st t
        simp only [applyTrackerOp, he] at h0
        cases h0
        exact hn
      | recordSuccess => simp [applyTrackerOp, handleSuccessfulLogin] at h0
    have hrest := ih (applyTrackerOp st op) hst' r hr
    rcases hrest with ⟨h1, h2⟩
    refine ⟨h1, ?_⟩
    cases hl : lastFailureTime rest with
    | some t =>
      rw [hl] at h2
      simp only [lastFailureTime, hl]
      exact h2
    | none =>
      rw [hl] at h2
      cases op with
      | recordFailure t =>
        simp only [lastFailureTime, hl]
        obtain ⟨n, hn, he⟩ := handleFailedLogin_snd 60 st t
        simp only [applyTrackerOp, he] at h2
        cases h2
        rfl
      | recordSuccess =>
        simp [applyTrackerOp, handleSuccessfulLogin] at h2

/-- C10: starting from no row, every sequence of the two mutators
(handle_failed_login stamped with its clock reading, and
handle_successful_login, which deletes the row) that leaves a row present
leaves it with attempt_count ≥ 1 and last_attempt_time equal to the clock
reading of the most recent recorded failure; a persisted row with
attempt_count 0 is unreachable. -/
theorem tracker_rows_wellformed (ops : List TrackerOp) (r : LockRec)
    (h : applyTrackerOps none ops = some r) :
    1 ≤ r.attempt_count ∧ lastFailureTime ops = some r.last_attempt_time := by
  have hmain := applyTrackerOps_inv ops none (by intro r0 h0; cases h0) r h
  rcases hmain with ⟨h1, h2⟩
  cases hl : lastFailureTime ops with
  | none => rw [hl] at h2; cases h2
  | some t => rw [hl] at h2; exact ⟨h1, by rw [h2]⟩

/-- Witness for C10: a single failure at clock reading 5 leaves a row with
count 1 and last_attempt_time 5. -/
theorem tracker_rows_wellformed_witness :
    1 ≤ (1 : ℕ) ∧ lastFailureTime [TrackerOp.recordFailure 5] = some (5 : ℤ) :=
  tracker_rows_wellformed [TrackerOp.recordFailure 5] ⟨1, 5⟩ (by decide)

/-- A login that reports success leaves no lockout row (the success path is
the only one returning loginOk, and it runs handle_successful_login). -/
lemma cmdLogin_ok_state (st : Option LockRec) (now : ℤ) (vr : Option ℕ)
    (uid : ℕ) (h : (cmdLogin st now vr).1 = .loginOk uid) :
    (cmdLogin st now vr).2 = none := by
  by_cases hl : (getLockoutStatus 3 60 st now).1
  · simp [cmdLogin, hl] at h
  · cases vr with
    | some i => simp [cmdLogin, hl, handleSuccessfulLogin]
    | none =>
      by_cases hc : 3 ≤ (handleFailedLogin 60 st now).1 <;>
        simp [cmdLogin, hl, hc] at h

/-- A failed login with no prior row stores count 1 at the current time. -/
lemma cmdLogin_fail_fresh (t : ℤ) :
    cmdLogin none t none = (.invalidCreds 2, some ⟨1, t⟩) := by
  simp [cmdLogin, getLockoutStatus, handleFailedLogin]

/-- A failed login on a count-1 row yields a row of count at most 2. -/
lemma cmdLogin_fail_one (tp t : ℤ) :
    ∃ c, c ≤ 2 ∧ (cmdLogin (some ⟨1, tp⟩) t none).2 = some ⟨c, t⟩ := by
  by_cases hl : (getLockoutStatus 3 60 (some ⟨1, tp⟩) t).1
  · exfalso
    simp only [getLockoutStatus] at hl
    split_ifs at hl; simp_all
  · by_cases he : (60 : ℤ) < t - tp
    · exact ⟨1, by omega, by simp [cmdLogin, hl, handleFailedLogin, he]⟩
    · refine ⟨2, by omega, ?_⟩
      have h2 : handleFailedLogin 60 (some ⟨1, tp⟩) t = (2, some ⟨2, t⟩) := by
        simp [handleFailedLogin, he]
      simp [cmdLogin, hl, h2]

/-- A row below the attempt threshold is never reported locked. -/
lemma getLockoutStatus_below (c : ℕ) (tp now : ℤ) (h : c < 3) :
    getLockoutStatus 3 60 (some ⟨c, tp⟩) now = (false, 0) := by
  simp only [getLockoutStatus]
  split_ifs with h1 h2 <;> first | rfl | omega

/-- C5: whatever state three failed logins leave, if a subsequent login call
reports success (loginOk), the failure record is cleared, so two further
failed logins leave counts 1 and at most 2, and the account is not locked at
any later clock reading: the lockout status after the sequence is
(false, 0). -/
theorem success_resets_counting (st0 : Option LockRec)
    (t1 t2 t3 t4 t5 t6 t7 : ℤ) (vr4 : Option ℕ) (uid : ℕ)
    (hok : (cmdLogin (cmdLogin (cmdLogin (cmdLogin st0 t1 none).2
        t2 none).2 t3 none).2 t4 vr4).1 = .loginOk uid) :
    getLockoutStatus 3 60
      (cmdLogin (cmdLogin (cmdLogin (cmdLogin (cmdLogin (cmdLogin st0
        t1 none).2 t2 none).2 t3 none).2 t4 vr4).2 t5 none).2 t6 none).2 t7
      = (false, 0) := by
  have h4 := cmdLogin_ok_state _ t4 vr4 uid hok
  rw [h4, cmdLogin_fail_fresh t5]
  obtain ⟨c, hc, he⟩ := cmdLogin_fail_one t5 t6
  rw [he]
  exact getLockoutStatus_below c t6 t7 (by omega)

/-- Witness for C5: three failures at 0, 1, 2 lock the account; a correct
login at 70 (after expiry) succeeds; failures at 71 and 72 leave the
account unlocked at 73. -/
theorem success_resets_counting_witness :
    getLockoutStatus 3 60
      (cmdLogin (cmdLogin (cmdLogin (cmdLogin (cmdLogin (cmdLogin none
        0 none).2 1 none).2 2 none).2 70 (some 5)).2 71 none).2 72 none).2 73
      = (false, 0) :=
  success_resets_counting none 0 1 2 70 71 72 73 (some 5) 5 (by decide)

/-- verify_login on a username with no case-insensitive match returns None
for every password. -/
lemma verifyLogin_unregistered (H : Hasher) (users : List UserRow)
    (u : String) (h : ∀ row ∈ users, nocaseEq row.username u = false) :
    ∀ pw, verifyLogin H users u pw = none := by
  intro pw
  have hf : users.find? (fun row => nocaseEq row.username u) = none := by
    rw [List.find?_eq_none]
    intro row hrow
    simp [h row hrow]
  simp [verifyLogin, hf]

/-- C3: a never-registered username and a registered username attacked with
always-failing passwords produce, from any common tracker state and the same
clock readings, identical outcome sequences (same error kinds, same
attempts_remaining and seconds_remaining) and identical final tracker
states. -/
theorem unknown_user_indistinguishable (H : Hasher)
    (usersA usersB : List UserRow) (uA uB : String)
    (steps : List (ℤ × String)) (st : Option LockRec)
    (hA : ∀ row ∈ usersA, nocaseEq row.username uA = false)
    (hB : ∀ s ∈ steps, verifyLogin H usersB uB s.2 = none) :
    runAuthLogin H usersA uA st steps = runAuthLogin H usersB uB st steps := by
  induction steps generalizing st with
  | nil => rfl
  | cons s rest ih =>
    simp only [runAuthLogin, authLogin]
    rw [verifyLogin_unregistered H usersA uA hA s.2,
        hB s (by simp), ih _ (fun x hx => hB x (by simp [hx]))]

/-- Witness for C3: one wrong-password attempt against an empty user table
and against a table holding bob give the same observable run. -/
theorem unknown_user_indistinguishable_witness :
    runAuthLogin idHasher [] "eve" none [(0, "wrong")]
      = runAuthLogin idHasher [⟨1, "bob", "Passw0rd", ""⟩] "bob" none
          [(0, "wrong")] :=
  unknown_user_indistinguishable idHasher [] [⟨1, "bob", "Passw0rd", ""⟩]
    "eve" "bob" [(0, "wrong")] none (by simp)
    (by
      intro s hs
      rw [List.mem_singleton] at hs
      subst hs
      decide)

/-- validate_credentials succeeds exactly on the specification's conditions:
username non-empty, alphanumeric, length in [3,20]; password of length at
least 8 containing an uppercase letter, a lowercase letter and a digit. -/
lemma validateCredentials_true_iff (u p : String) :
    (validateCredentials u p).1 = true ↔ validSpec u p := by
  unfold validateCredentials
  split_ifs with h1 h2 h3 h4
  · refine iff_of_true rfl ?_
    obtain ⟨hU, hL, hD⟩ := h4
    rw [List.any_eq_true] at hU hL hD
    exact ⟨h1.1, h1.2, h2.1, h2.2, h3.2, hU, hL, hD⟩
  · refine iff_of_false (by simp) (fun h => h4 ?_)
    obtain ⟨-, -, -, -, -, hU, hL, hD⟩ := h
    refine ⟨?_, ?_, ?_⟩ <;> rw [List.any_eq_true]
    · exact hU
    · exact hL
    · exact hD
  · refine iff_of_false (by simp) (fun h => h3 ⟨?_, h.2.2.2.2.1⟩)
    intro hp
    have h8 := h.2.2.2.2.1
    rw [hp] at h8
    simp at h8
  · exact iff_of_false (by simp) (fun h => h2 ⟨h.2.2.1, h.2.2.2.1⟩)
  · exact iff_of_false (by simp) (fun h => h1 ⟨h.1, h.2.1⟩)

/-- C7: registration validates input locally before any storage access:
validation succeeds exactly when the username is non-empty, alphanumeric and
of length in [3,20] and the password has length ≥ 8 with at least one
uppercase letter, one lowercase letter and one digit; when those conditions
fail, register_user returns the validation failure reason and the users
table exactly as it was. -/
theorem register_validates_before_storage (H : Hasher) (users : List UserRow)
    (u p ts : String) :
    ((validateCredentials u p).1 = true ↔ validSpec u p) ∧
    (¬ validSpec u p →
      registerUser H users u p ts
        = ((false, (validateCredentials u p).2), users)) := by
  refine ⟨validateCredentials_true_iff u p, ?_⟩
  intro hnv
  have hfalse : (validateCredentials u p).1 = false := by
    cases hb : (validateCredentials u p).1
    · rfl
    · exact absurd ((validateCredentials_true_iff u p).1 hb) hnv
  rcases hv : validateCredentials u p with ⟨b, msg⟩
  rw [hv] at hfalse
  subst hfalse
  simp [registerUser, hv]

/-- Witness for C7: a two-character username is rejected with the length
reason and an empty table stays empty. -/
theorem register_validates_before_storage_witness :
    registerUser idHasher [] "ab" "Passw0rd" ""
      = ((false, "Username must be between 3 and 20 characters."), []) :=
  (register_validates_before_storage idHasher [] "ab" "Passw0rd" "").2
    (by decide)

/-- C6 counterexample: registering the already-taken username alice (as
ALICE) with a format-invalid password fails with the password-format reason,
not with the UsernameTaken error — validation runs before the uniqueness
check. -/
theorem register_taken_claim_cex :
    registerUser idHasher [⟨1, "alice", "Passw0rd", ""⟩] "ALICE" "short" ""
      = ((false, "Password must be at least 8 characters long."),
         [⟨1, "alice", "Passw0rd", ""⟩]) ∧
    ("Password must be at least 8 characters long." : String)
      ≠ "Username already exists." := by decide

/-- C6 (amended): case-insensitive uniqueness of usernames is an invariant
preserved by register_user (the only operation writing the users table), and
registering a username that already exists in any case variation fails with
the UsernameTaken error and leaves the table unchanged, provided the
submitted credentials pass format validation (which runs first). -/
theorem register_unique_nocase (H : Hasher) (users : List UserRow)
    (u p ts : String) :
    (usernamesUniqueNocase users →
      usernamesUniqueNocase (registerUser H users u p ts).2) ∧
    ((validateCredentials u p).1 = true →
      (∃ row ∈ users, nocase row.username = nocase u) →
      registerUser H users u p ts
        = ((false, "Username already exists."), users)) := by
  constructor
  · intro huniq
    rcases hv : validateCredentials u p with ⟨b, msg⟩
    cases b with
    | false => simpa [registerUser, hv] using huniq
    | true =>
      by_cases hany : users.any (fun row => nocaseEq row.username u) = true
      · simpa [registerUser, hv, hany] using huniq
      · have hne : ∀ row ∈ users, nocase row.username ≠ nocase u := by
          intro row hrow
          rw [List.any_eq_true] at hany
          push_neg at hany
          have := hany row hrow
          simpa [nocaseEq] using this
        have : registerUser H users u p ts
            = ((true, "Success"),
               users ++ [⟨users.length + 1, u, H.hash p, ts⟩]) := by
          simp [registerUser, hv, hany]
        rw [this]
        unfold usernamesUniqueNocase at huniq ⊢
        rw [List.pairwise_append]
        refine ⟨huniq, List.pairwise_singleton _ _, ?_⟩
        intro a ha b hb
        rw [List.mem_singleton] at hb
        subst hb
        exact hne a ha
  · intro hval hex
    rcases hv : validateCredentials u p with ⟨b, msg⟩
    rw [hv] at hval
    subst hval
    have hany : users.any (fun row => nocaseEq row.username u) = true := by
      rw [List.any_eq_true]
      obtain ⟨row, hrow, hmatch⟩ := hex
      exact ⟨row, hrow, by simp [nocaseEq, hmatch]⟩
    simp [registerUser, hv, hany]

/-- Witness for C6 (amended): registering ALICE with a valid password while
alice exists fails with the UsernameTaken message, table unchanged. -/
theorem register_unique_nocase_witness :
    registerUser idHasher [⟨1, "alice", "Passw0rd", ""⟩] "ALICE" "Str0ngPwd" ""
      = ((false, "Username already exists."),
         [⟨1, "alice", "Passw0rd", ""⟩]) :=
  (register_unique_nocase idHasher [⟨1, "alice", "Passw0rd", ""⟩]
      "ALICE" "Str0ngPwd" "").2 (by decide)
    ⟨⟨1, "alice", "Passw0rd", ""⟩, by simp, by decide⟩

/-- Searching an appended list when the first part has no match. -/
lemma find?_append_of_none {α : Type} (p : α → Bool) (l₁ l₂ : List α)
    (h : l₁.find? p = none) : (l₁ ++ l₂).find? p = l₂.find? p := by
  induction l₁ with
  | nil => simp
  | cons a l ih =>
    by_cases hp : p a
    · rw [List.find?_cons_of_pos _ hp] at h
      cases h
    · rw [List.find?_cons_of_neg _ hp] at h
      rw [List.cons_append, List.find?_cons_of_neg _ hp]
      exact ih h

/-- Appending rows never disturbs an existing first match. -/
lemma find?_append_of_some {α : Type} (p : α → Bool) (l₁ l₂ : List α) (a : α)
    (h : l₁.find? p = some a) : (l₁ ++ l₂).find? p = some a := by
  induction l₁ with
  | nil => cases h
  | cons b l ih =>
    by_cases hp : p b
    · rw [List.find?_cons_of_pos _ hp] at h
      rw [List.cons_append, List.find?_cons_of_pos _ hp]
      exact h
    · rw [List.find?_cons_of_neg _ hp] at h
      rw [List.cons_append, List.find?_cons_of_neg _ hp]
      exact ih h

/-- C8: for a valid (username, password) pair whose username has no
case-insensitive match yet, register_user succeeds, a subsequent login with
the same pair from any non-locked tracker state succeeds with the freshly
assigned account id, and every later lookup — also after further rows are
appended — returns that same id.  The hasher hypothesis is the Argon2
contract: verification against the stored hash succeeds exactly for the
registered password. -/
theorem register_then_login_ok (H : Hasher) (users : List UserRow)
    (u p ts : String)
    (hH : ∀ q, H.verify (H.hash p) q = (p == q))
    (hvalid : validSpec u p)
    (hfresh : ∀ row ∈ users, nocaseEq row.username u = false) :
    (registerUser H users u p ts).1 = (true, "Success") ∧
    verifyLogin H (registerUser H users u p ts).2 u p
      = some (users.length + 1) ∧
    (∀ st now, (getLockoutStatus 3 60 st now).1 = false →
      (cmdLogin st now (verifyLogin H (registerUser H users u p ts).2 u p)).1
        = .loginOk (users.length + 1)) ∧
    (∀ extra, verifyLogin H ((registerUser H users u p ts).2 ++ extra) u p
      = some (users.length + 1)) := by
  have hval : (validateCredentials u p).1 = true :=
    (validateCredentials_true_iff u p).2 hvalid
  rcases hv : validateCredentials u p with ⟨b, msg⟩
  rw [hv] at hval
  subst hval
  have hany : users.any (fun row => nocaseEq row.username u) = false := by
    rw [List.any_eq_false]
    intro row hrow
    simp [hfresh row hrow]
  have hreg : registerUser H users u p ts
      = ((true, "Success"),
         users ++ [⟨users.length + 1, u, H.hash p, ts⟩]) := by
    simp [registerUser, hv, hany]
  have hnone : users.find? (fun row => nocaseEq row.username u) = none := by
    rw [List.find?_eq_none]
    intro row hrow
    simp [hfresh row hrow]
  have hself : nocaseEq u u = true := by simp [nocaseEq]
  have hfind : ∀ extra : List UserRow,
      verifyLogin H ((users ++ [⟨users.length + 1, u, H.hash p, ts⟩]) ++ extra)
        u p = some (users.length + 1) := by
    intro extra
    have h1 : (users ++ [(⟨users.length + 1, u, H.hash p, ts⟩ : UserRow)]).find?
        (fun row => nocaseEq row.username u)
        = some ⟨users.length + 1, u, H.hash p, ts⟩ := by
      rw [find?_append_of_none _ _ _ hnone]
      exact List.find?_cons_of_pos _ hself
    have h2 := find?_append_of_some
      (fun row => nocaseEq row.username u) _ extra _ h1
    unfold verifyLogin
    rw [h2]
    simp [hH p]
  have hlookup : verifyLogin H (registerUser H users u p ts).2 u p
      = some (users.length + 1) := by
    rw [hreg]
    have := hfind []
    simpa using this
  refine ⟨by rw [hreg], hlookup, ?_, ?_⟩
  · intro st now hnl
    rw [hlookup]
    simp [cmdLogin, hnl, handleSuccessfulLogin]
  · intro extra
    rw [hreg]
    exact hfind extra

/-- Witness for C8: registering bob1 into an empty table and logging in with
the same pair finds account id 1. -/
theorem register_then_login_ok_witness :
    verifyLogin idHasher (registerUser idHasher [] "bob1" "Passw0rd" "").2
      "bob1" "Passw0rd" = some 1 :=
  (register_then_login_ok idHasher [] "bob1" "Passw0rd" ""
    (fun _ => rfl) (by decide) (by simp)).2.1

/-- C9 counterexample: the same three wrong-password attempts at clock
readings 0, 1 and 100 yield invalid credentials (2 attempts remaining) at
the third step from the database-backed variant, whose counter resets once
more than 60 seconds passed since the last failure, but a lockout from the
file-backed variant, which never resets a count below the threshold. -/
theorem variants_claim_cex :
    (runCmdLogin none [(0, none), (1, none), (100, none)]).1
      ≠ (runFileCmdLogin ⟨0, 0⟩ [(0, none), (1, none), (100, none)]).1 := by
  decide

/-- Relation between a database tracker row and a file-variant entry under
which the two login commands stay indistinguishable while clock readings
remain inside [lo, lo + 60). -/
def statesRelated (lo : ℤ) (db : Option LockRec) (f : FileRec) : Prop :=
  (db = none ∧ f = ⟨0, 0⟩) ∨
  (∃ c t, 1 ≤ c ∧ lo ≤ t ∧ db = some ⟨c, t⟩ ∧
    f = ⟨c, if 3 ≤ c then t else 0⟩)

/-- One related step: inside the window both variants print the same outcome
and their states stay related. -/
lemma step_related (lo : ℤ) (db : Option LockRec) (f : FileRec)
    (hrel : statesRelated lo db f) (now : ℤ) (vr : Option ℕ)
    (hlow : lo ≤ now) (hhigh : now < lo + 60) :
    (cmdLogin db now vr).1 = (fileCmdLogin f now vr).1 ∧
    statesRelated lo (cmdLogin db now vr).2 (fileCmdLogin f now vr).2 := by
  rcases hrel with ⟨hdb, hf⟩ | ⟨c, t, hc, ht, hdb, hf⟩
  · subst hdb
    subst hf
    cases vr with
    | some i =>
      have hdbe : cmdLogin none now (some i) = (.loginOk i, none) := by
        simp [cmdLogin, getLockoutStatus, handleSuccessfulLogin]
      have hfle : fileCmdLogin ⟨0, 0⟩ now (some i) = (.loginOk i, ⟨0, 0⟩) := by
        simp [fileCmdLogin]
      rw [hdbe, hfle]
      exact ⟨rfl, Or.inl ⟨rfl, rfl⟩⟩
    | none =>
      have hdbe : cmdLogin none now none = (.invalidCreds 2, some ⟨1, now⟩) := by
        simp [cmdLogin, getLockoutStatus, handleFailedLogin]
      have hfle : fileCmdLogin ⟨0, 0⟩ now none = (.invalidCreds 2, ⟨1, 0⟩) := by
        simp [fileCmdLogin]
      rw [hdbe, hfle]
      exact ⟨rfl, Or.inr ⟨1, now, le_refl 1, hlow, rfl, by simp⟩⟩
  · subst hdb
    subst hf
    have hne : ¬((60 : ℤ) < now - t) := by omega
    by_cases hc3 : 3 ≤ c
    · have hdbe : cmdLogin (some ⟨c, t⟩) now vr
          = (.accountLocked (60 - (now - t)), some ⟨c, t⟩) := by
        simp [cmdLogin, getLockoutStatus, hne, hc3]
      have hfle : fileCmdLogin ⟨c, if 3 ≤ c then t else 0⟩ now vr
          = (.accountLocked (60 - (now - t)), ⟨c, t⟩) := by
        rw [if_pos hc3]
        have hcond : 3 ≤ c ∧ now - t < 60 := ⟨hc3, by omega⟩
        simp [fileCmdLogin, hcond]
      rw [hdbe, hfle]
      exact ⟨rfl, Or.inr ⟨c, t, hc, ht, rfl, by rw [if_pos hc3]⟩⟩
    · have hstat : (getLockoutStatus 3 60 (some ⟨c, t⟩) now).1 = false := by
        simp [getLockoutStatus, hne, hc3]
      rw [if_neg hc3]
      cases vr with
      | some i =>
        have hdbe : cmdLogin (some ⟨c, t⟩) now (some i) = (.loginOk i, none) := by
          simp [cmdLogin, hstat, handleSuccessfulLogin]
        have hfle : fileCmdLogin ⟨c, 0⟩ now (some i) = (.loginOk i, ⟨0, 0⟩) := by
          simp [fileCmdLogin, hc3]
        rw [hdbe, hfle]
        exact ⟨rfl, Or.inl ⟨rfl, rfl⟩⟩
      | none =>
        have hfail : handleFailedLogin 60 (some ⟨c, t⟩) now
            = (c + 1, some ⟨c + 1, now⟩) := by
          simp [handleFailedLogin, hne]
        by_cases hc2 : 3 ≤ c + 1
        · have hdbe : cmdLogin (some ⟨c, t⟩) now none
              = (.lockedNow, some ⟨c + 1, now⟩) := by
            simp [cmdLogin, hstat, hfail, hc2]
          have hfle : fileCmdLogin ⟨c, 0⟩ now none
              = (.lockedNow, ⟨c + 1, now⟩) := by
            simp [fileCmdLogin, hc3, hc2]
          rw [hdbe, hfle]
          exact ⟨rfl, Or.inr ⟨c + 1, now, by omega, hlow, rfl, by
            rw [if_pos hc2]⟩⟩
        · have hdbe : cmdLogin (some ⟨c, t⟩) now none
              = (.invalidCreds (3 - (c + 1)), some ⟨c + 1, now⟩) := by
            simp [cmdLogin, hstat, hfail, hc2]
          have hfle : fileCmdLogin ⟨c, 0⟩ now none
              = (.invalidCreds (3 - (c + 1)), ⟨c + 1, 0⟩) := by
            simp [fileCmdLogin, hc3, hc2]
          rw [hdbe, hfle]
          exact ⟨rfl, Or.inr ⟨c + 1, now, by omega, hlow, rfl, by
            rw [if_neg hc2]⟩⟩

/-- Related runs: outcome lists agree step by step and the final states stay
related. -/
lemma run_related (lo : ℤ) (steps : List (ℤ × Option ℕ)) :
    ∀ db f, statesRelated lo db f →
      (∀ s ∈ steps, lo ≤ s.1 ∧ s.1 < lo + 60) →
      (runCmdLogin db steps).1 = (runFileCmdLogin f steps).1 ∧
      statesRelated lo (runCmdLogin db steps).2 (runFileCmdLogin f steps).2 := by
  induction steps with
  | nil => exact fun db f h _ => ⟨rfl, h⟩
  | cons s rest ih =>
    intro db f h hw
    have hs := hw s (by simp)
    have hstep := step_related lo db f h s.1 s.2 hs.1 hs.2
    have hrest := ih _ _ hstep.2 (fun x hx => hw x (by simp [hx]))
    simp only [runCmdLogin, runFileCmdLogin]
    exact ⟨by rw [hstep.1, hrest.1], hrest.2⟩

/-- C9 (amended): from fresh attempt state the file-based and the
database-based login variants produce identical outcome sequences (same
success, error kind, attempts remaining and seconds remaining at every
step) for every sequence of login calls whose clock readings all lie inside
one window [lo, lo + 60) shorter than the lockout duration; outside such a
window they diverge, as a failure more than 60 seconds after the previous
one is reset by the database variant but counted by the file variant. -/
theorem variants_agree_in_window (lo : ℤ) (steps : List (ℤ × Option ℕ))
    (hw : ∀ s ∈ steps, lo ≤ s.1 ∧ s.1 < lo + 60) :
    (runCmdLogin none steps).1 = (runFileCmdLogin ⟨0, 0⟩ steps).1 :=
  (run_related lo steps none ⟨0, 0⟩ (Or.inl ⟨rfl, rfl⟩) hw).1

/-- Witness for C9 (amended): four attempts inside one minute — three
failures then a lockout-era attempt — agree across the two variants. -/
theorem variants_agree_in_window_witness :
    (runCmdLogin none [(0, none), (1, none), (2, none), (10, none)]).1
      = (runFileCmdLogin ⟨0, 0⟩ [(0, none), (1, none), (2, none), (10, none)]).1 :=
  variants_agree_in_window 0 [(0, none), (1, none), (2, none), (10, none)]
    (by decide)

end Sem
